import Mathlib

/-!
Verification development for the `terminaltext` terminal text editor
(`src/editor.hpp`, `src/editor.cpp`).

Modelling conventions (shallow embedding):
* C++ `std::string` text is modelled as `List Char`; a buffer's line list as
  `List (List Char)`.
* C++ `int` arguments (`row`, `col`, key codes, deltas) are modelled as `Int`.
  Where the source compares an `int` against a `size_t` (e.g.
  `row >= lines.size()`), the usual arithmetic conversion turns a negative
  `int` into a huge unsigned value, so the comparison holds; the model states
  the resulting condition directly over `Int` (e.g. `row < 0 ∨ length ≤ row`).
* Fallible operations return `Except Unit α`.  `.error ()` models either a
  thrown C++ exception (`std::string::insert` / `erase` with an out-of-range
  position throw `std::out_of_range`) or an out-of-bounds vector iterator
  (undefined behaviour in C++, e.g. `lines.erase(lines.begin() + row)` with
  `row` out of range); in both cases the call does not return normally with
  an unchanged buffer.
* The filesystem is modelled explicitly: a file's content is a `List Char`
  (`none` = the file cannot be opened).  `std::getline` semantics are
  captured by `getlines`.
-/

deriving instance DecidableEq for Except

namespace TerminalText

/-- File content as stored on disk; `none` models an unopenable file. -/
abbrev FileContent := Option (List Char)

/-- Record splitting with `std::getline` semantics: reads records terminated by `'\n'`;
a final record not terminated by `'\n'` is still produced; empty input
produces no records. -/
def getlines : List Char → List (List Char)
  | [] => []
  | c :: cs =>
    if c = '\n' then [] :: getlines cs
    else
      match getlines cs with
      | [] => [[c]]
      | l :: rest => (c :: l) :: rest

/-- The `Buffer` class: an ordered line list, a file path and a modified flag
(`editor.hpp`, lines 34‑55). -/
structure Buffer where
  lines : List (List Char)
  filepath : List Char
  modified : Bool
deriving DecidableEq, Repr

namespace Buffer

/-- The default constructor `Buffer() { lines.push_back(""); }`. -/
def mkDefault : Buffer := ⟨[[]], [], false⟩

/-- Model of `Buffer::insertChar(row, col, c)` (`editor.cpp` 87‑91):
`if (row >= lines.size()) return;` (unsigned comparison, so negative `row`
also returns), then `lines[row].insert(col, 1, c)`.  `std::string::insert`
throws `std::out_of_range` when the (size_t‑converted) position exceeds the
line length — the `col` argument is not checked by the source. -/
def insertChar (b : Buffer) (row col : Int) (c : Char) : Except Unit Buffer :=
  if row < 0 ∨ (b.lines.length : Int) ≤ row then .ok b
  else
    let r := row.toNat
    let line := b.lines.getD r []
    if col < 0 ∨ (line.length : Int) < col then .error ()
    else
      let co := col.toNat
      .ok { b with lines := b.lines.set r (line.take co ++ c :: line.drop co)
                 , modified := true }

/-- Model of `Buffer::deleteChar(row, col)` (`editor.cpp` 93‑97):
`if (row >= lines.size() || col == 0) return;` then
`lines[row].erase(col - 1, 1)`.  `std::string::erase` throws
`std::out_of_range` when the (size_t‑converted) position `col - 1` exceeds
the line length. -/
def deleteChar (b : Buffer) (row col : Int) : Except Unit Buffer :=
  if row < 0 ∨ (b.lines.length : Int) ≤ row ∨ col = 0 then .ok b
  else
    let r := row.toNat
    let line := b.lines.getD r []
    if col < 0 ∨ (line.length : Int) < col - 1 then .error ()
    else
      let p := (col - 1).toNat
      .ok { b with lines := b.lines.set r (line.take p ++ line.drop (p + 1))
                 , modified := true }

/-- Model of `Buffer::insertLine(row)` (`editor.cpp` 99‑103):
`if (row > lines.size()) return;` (unsigned comparison), then
`lines.insert(lines.begin() + row + 1, "")`.  When `row == lines.size()` the
iterator `begin() + row + 1` is past one‑past‑the‑end: undefined behaviour,
modelled as `.error ()`. -/
def insertLine (b : Buffer) (row : Int) : Except Unit Buffer :=
  if row < 0 ∨ (b.lines.length : Int) < row then .ok b
  else if row = (b.lines.length : Int) then .error ()
  else
    let r := row.toNat
    .ok { b with lines := b.lines.take (r + 1) ++ [[]] ++ b.lines.drop (r + 1)
               , modified := true }

/-- Model of `Buffer::deleteLine(row)` (`editor.cpp` 105‑109):
`if (lines.size() <= 1) return;` then `lines.erase(lines.begin() + row)` —
the source performs no range check on `row`; an out-of-range `row` yields an
invalid iterator (undefined behaviour), modelled as `.error ()`. -/
def deleteLine (b : Buffer) (row : Int) : Except Unit Buffer :=
  if (b.lines.length : Int) ≤ 1 then .ok b
  else if row < 0 ∨ (b.lines.length : Int) ≤ row then .error ()
  else
    let r := row.toNat
    .ok { b with lines := b.lines.take r ++ b.lines.drop (r + 1)
               , modified := true }

/-- Model of `Buffer::getLine(row)` (`editor.cpp` 111‑114): returns `""` when `row` is
out of range (again an unsigned comparison, so also for negative `row`). -/
def getLine (b : Buffer) (row : Int) : List Char :=
  if row < 0 ∨ (b.lines.length : Int) ≤ row then []
  else b.lines.getD row.toNat []

/-- The byte stream `Buffer::save()` (`editor.cpp` 116‑122) writes: every
line followed by `'\n'`. -/
def saveContent (b : Buffer) : List Char :=
  (b.lines.map (fun l => l ++ ['\n'])).flatten

/-- Model of `Buffer::save()`: writes `saveContent` to the file path and clears the
modified flag.  Returns the updated buffer together with the bytes written. -/
def save (b : Buffer) : Buffer × List Char :=
  ({ b with modified := false }, b.saveContent)

/-- Model of `Buffer::load()` (`editor.cpp` 124‑136): clears the line list; if the file
cannot be opened, a single empty line; otherwise the `getline` records, with
a single empty line if there are none.  `load` does not touch `modified`. -/
def load (b : Buffer) (content : FileContent) : Buffer :=
  match content with
  | none => { b with lines := [[]] }
  | some cs =>
    let ls := getlines cs
    { b with lines := if ls = [] then [[]] else ls }

/-- The converting constructor `Buffer::Buffer(path)` (`editor.cpp` 83‑85):
stores the path and runs `load()`. -/
def ofPath (path : List Char) (content : FileContent) : Buffer :=
  load ⟨[], path, false⟩ content

end Buffer

/-- The ANSI reset escape `"\x1b[0m"` appended after every highlighted match
(`editor.cpp` line 74). -/
def resetEscape : List Char := ['\x1b', '[', '0', 'm']

/-- Abstraction of a compiled `std::regex` as used through
`std::regex_search(first, last, match, pattern)`: `find s` returns the
position and length of the earliest match inside `s`, or `none`.  The
`valid` field records that a reported match lies inside the string and is
nonempty (the source loop `searchStart += position + length` would not
terminate on an empty match; the rules registered by the editor never
produce one). -/
structure Matcher where
  find : List Char → Option (Nat × Nat)
  valid : ∀ s p n, find s = some (p, n) → p + n ≤ s.length ∧ 1 ≤ n

/-- One highlighting pass as the specification describes it: scan left to
right for non-overlapping matches, wrap each match as
`color ++ match ++ resetEscape`, keep unmatched spans, concatenate in
order.  Declarative recursion on the remaining suffix. -/
def highlightPass (m : Matcher) (color : List Char) (s : List Char) : List Char :=
  match h : m.find s with
  | none => s
  | some (p, n) =>
    s.take p ++ color ++ (s.drop p).take n ++ resetEscape
      ++ highlightPass m color (s.drop (p + n))
termination_by s.length
decreasing_by
  have hv := m.valid s p n h
  simp only [List.length_drop]
  omega

/-- The `while (std::regex_search(...))` loop of
`SyntaxHighlighter::highlight` (`editor.cpp` 64‑77), transcribed with its
accumulator `result`: each iteration appends the unmatched prefix, the color
escape, the match text and the reset escape, then advances `searchStart`
past the match; after the loop the remaining tail is appended. -/
def passLoop (m : Matcher) (color : List Char) (acc s : List Char) : List Char :=
  match h : m.find s with
  | none => acc ++ s
  | some (p, n) =>
    passLoop m color
      (acc ++ s.take p ++ color ++ (s.drop p).take n ++ resetEscape)
      (s.drop (p + n))
termination_by s.length
decreasing_by
  have hv := m.valid s p n h
  simp only [List.length_drop]
  omega

/-- The `SyntaxHighlighter` class: an ordered rule list
(`editor.hpp` 22‑32). -/
structure SyntaxHighlighter where
  rules : List (Matcher × List Char)

/-- Model of `SyntaxHighlighter::highlight(line)` (`editor.cpp` 62‑80): `result`
starts as the input line; for each rule in registration order, the current
`result` becomes `temp` and is rewritten by the match loop starting from an
empty `result`. -/
def SyntaxHighlighter.highlight (hl : SyntaxHighlighter) (line : List Char) :
    List Char :=
  hl.rules.foldl (fun result rule => passLoop rule.1 rule.2 [] result) line

/-- The specification's description of `highlight`: a fold over the rules in
registration order, each pass being the declarative left-to-right
non-overlapping rewriting `highlightPass`, applied to the previous pass's
output. -/
def highlightSpecFold (hl : SyntaxHighlighter) (line : List Char) : List Char :=
  hl.rules.foldl (fun s rule => highlightPass rule.1 rule.2 s) line

/-- Conversion of a `size_t` value to C++ `int` (as `g++` defines it for
out-of-range values): take the value modulo `2^32` and interpret as a signed
32‑bit integer. -/
def sizetToInt (m : Nat) : Int :=
  let r : Nat := m % 2 ^ 32
  if r < 2 ^ 31 then (r : Int) else (r : Int) - 2 ^ 32

/-- Value of `files.size() - 1` computed in `size_t` arithmetic: wraps to `2^64 - 1`
when the vector is empty. -/
def sizetPred (n : Nat) : Nat := (n + (2 ^ 64 - 1)) % 2 ^ 64

/-- The `FileExplorer` class (`editor.hpp` 75‑83): a listed entry vector and
a selection index (`int`, initialised to 0). -/
structure FileExplorer where
  files : List (List Char)
  selectedIndex : Int
deriving DecidableEq, Repr

namespace FileExplorer

/-- Model of `FileExplorer::scanDirectory(path)` (`editor.cpp` 161‑168): replaces the
entry list (an enumeration failure yields the empty list); the selection
index is not touched.  The directory listing is supplied by the filesystem
model. -/
def scanDirectory (fe : FileExplorer) (listing : List (List Char)) :
    FileExplorer :=
  { fe with files := listing }

/-- Model of `FileExplorer::moveSelection(delta)` (`editor.cpp` 178‑182):
`selectedIndex += delta; if (selectedIndex < 0) selectedIndex = 0;
if (selectedIndex >= files.size()) selectedIndex = files.size() - 1;`.
The second comparison converts the (now nonnegative) `int` to `size_t`; the
assigned `files.size() - 1` is a `size_t` expression converted back to
`int`, which wraps to `-1` when the vector is empty. -/
def moveSelection (fe : FileExplorer) (delta : Int) : FileExplorer :=
  let i0 := fe.selectedIndex + delta
  let i1 := if i0 < 0 then 0 else i0
  let i2 := if (fe.files.length : Int) ≤ i1 then sizetToInt (sizetPred fe.files.length) else i1
  { fe with selectedIndex := i2 }

end FileExplorer

/-- Plugin notifications fanned out by the editor
(`PluginManager::notifyKeyPress` / `notifyBufferChange`,
`editor.cpp` 148‑158), recorded as an event trace. -/
inductive Event where
  | keyPress (key : Char)
  | bufferChange
deriving DecidableEq, Repr

/-- Model of the external world the editor touches: file reads by path and
the listing of the current directory. -/
structure FileSystem where
  read : List Char → FileContent
  listDir : List (List Char)

/-- The `Editor` class state (`editor.hpp` 85‑99).  `currentBuffer` is the
C++ `int` index into the buffer vector; it is only ever assigned `0` or
`buffers.size() - 1`, so it is modelled as `Nat`. -/
structure Editor where
  buffers : List Buffer
  currentBuffer : Nat
  cursorRow : Int
  cursorCol : Int
  rowOffset : Int
  colOffset : Int
  statusMessage : List Char
  commandBuffer : List Char
  commandMode : Bool
  running : Bool
  showExplorer : Bool
  fileExplorer : FileExplorer
deriving DecidableEq, Repr

namespace Editor

/-- Model of `Editor::getCurrentBuffer()` (`editor.hpp` 119): `*buffers[currentBuffer]`. -/
def currentBuf (e : Editor) : Buffer :=
  e.buffers.getD e.currentBuffer Buffer.mkDefault

/-- Replace the current buffer. -/
def setCurrentBuf (e : Editor) (b : Buffer) : Editor :=
  { e with buffers := e.buffers.set e.currentBuffer b }

/-- Model of `Editor::insertChar(c)` (`editor.cpp` 246‑250): insert at the cursor,
advance the cursor, notify `onBufferChange`.  The underlying
`Buffer::insertChar` can throw when `cursorCol` is out of range. -/
def insertChar (e : Editor) (c : Char) : Except Unit (Editor × List Event) :=
  (e.currentBuf.insertChar e.cursorRow e.cursorCol c).map fun b =>
    ({ e.setCurrentBuf b with cursorCol := e.cursorCol + 1 },
     [Event.bufferChange])

/-- Model of `Editor::deleteChar()` (`editor.cpp` 252‑258): only acts when
`cursorCol > 0`; then deletes before the cursor, moves the cursor left and
notifies `onBufferChange`. -/
def deleteChar (e : Editor) : Except Unit (Editor × List Event) :=
  if e.cursorCol > 0 then
    (e.currentBuf.deleteChar e.cursorRow e.cursorCol).map fun b =>
      ({ e.setCurrentBuf b with cursorCol := e.cursorCol - 1 },
       [Event.bufferChange])
  else .ok (e, [])

/-- Model of `Editor::newLine()` (`editor.cpp` 260‑268), transcribed statement by
statement.  The source binds `std::string& line` to the current line
(through `getLine`, which actually returns by value — the binding is
modelled with reference semantics, the code's evident reading), computes
`rest = line.substr(cursorCol)` — which is then never used — truncates the
line to `line.substr(0, cursorCol)`, inserts an empty line after
`cursorRow`, and moves the cursor to the start of the inserted line.
`substr(cursorCol)` throws `std::out_of_range` when `cursorCol` exceeds the
line length (or is negative, via the size_t conversion). -/
def newLine (e : Editor) : Except Unit (Editor × List Event) :=
  let b := e.currentBuf
  let line := b.getLine e.cursorRow
  if e.cursorCol < 0 ∨ (line.length : Int) < e.cursorCol then .error ()
  else
    let _rest := line.drop e.cursorCol.toNat
    let truncated := line.take e.cursorCol.toNat
    let b1 :=
      if 0 ≤ e.cursorRow ∧ e.cursorRow < (b.lines.length : Int) then
        { b with lines := b.lines.set e.cursorRow.toNat truncated }
      else b
    (b1.insertLine e.cursorRow).map fun b2 =>
      ({ e.setCurrentBuf b2 with cursorRow := e.cursorRow + 1, cursorCol := 0 },
       [Event.bufferChange])

/-- Model of `Editor::quit()` (`editor.cpp` 290‑296). -/
def quit (e : Editor) : Editor :=
  if e.currentBuf.modified then
    { e with statusMessage :=
        "Unsaved changes! Use :q! to force quit".toList }
  else { e with running := false }

/-- Model of `Editor::saveFile()` (`editor.cpp` 285‑288): saves the current buffer
(the bytes written are dropped here; `Buffer.save` exposes them) and sets
the status message. -/
def saveFile (e : Editor) : Editor :=
  { e.setCurrentBuf (e.currentBuf.save).1 with
      statusMessage := "File saved".toList }

/-- Model of `Editor::openFile(filepath)` (`editor.cpp` 279‑283): pushes a fresh
buffer constructed from the path, makes it current, resets the cursor. -/
def openFile (fs : FileSystem) (e : Editor) (filepath : List Char) : Editor :=
  { e with buffers := e.buffers ++ [Buffer.ofPath filepath (fs.read filepath)]
         , currentBuffer := e.buffers.length
         , cursorRow := 0
         , cursorCol := 0 }

/-- Model of `Editor::executeCommand(cmd)` (`editor.cpp` 270‑277), with the source's
comparison order; `cmd.substr(0, 2) == "e "` is `cmd.take 2`. -/
def executeCommand (fs : FileSystem) (e : Editor) (cmd : List Char) : Editor :=
  if cmd = "q".toList then e.quit
  else if cmd = "w".toList then e.saveFile
  else if cmd = "wq".toList then e.saveFile.quit
  else if cmd.take 2 = "e ".toList then e.openFile fs (cmd.drop 2)
  else if cmd = "explorer".toList then
    { e with showExplorer := !e.showExplorer
           , fileExplorer := e.fileExplorer.scanDirectory fs.listDir }
  else { e with statusMessage := ("Unknown command: ".toList ++ cmd) }

/-- Model of `Editor::processKeypress()` (`editor.cpp` 211‑244) after a byte `c` has
been read.  In command mode no plugin notification is sent; in insert mode
`notifyKeyPress` fires first, then the key is dispatched.  Key codes follow
the source: `'\r'` = 13, ESC = 27, backspace = 127, `':'` = 58, printable
is `32 ≤ c ≤ 126` (bytes ≥ 128 are negative as C++ `char` and fall through,
as they do here via `Char.toNat`). -/
def processKeypress (fs : FileSystem) (e : Editor) (c : Char) :
    Except Unit (Editor × List Event) :=
  if e.commandMode then
    if c.toNat = 13 then
      let e1 := e.executeCommand fs e.commandBuffer
      .ok ({ e1 with commandMode := false, commandBuffer := [] }, [])
    else if c.toNat = 27 then
      .ok ({ e with commandMode := false, commandBuffer := [] }, [])
    else if c.toNat = 127 then
      .ok ({ e with commandBuffer := e.commandBuffer.dropLast }, [])
    else
      .ok ({ e with commandBuffer := e.commandBuffer ++ [c] }, [])
  else
    let evs := [Event.keyPress c]
    if c.toNat = 58 then .ok ({ e with commandMode := true }, evs)
    else if c.toNat = 27 then .ok (e, evs)
    else if c.toNat = 127 then
      (e.deleteChar).map fun p => (p.1, evs ++ p.2)
    else if c.toNat = 13 then
      (e.newLine).map fun p => (p.1, evs ++ p.2)
    else if 32 ≤ c.toNat ∧ c.toNat ≤ 126 then
      (e.insertChar c).map fun p => (p.1, evs ++ p.2)
    else .ok (e, evs)

end Editor

/-- Sequences of the line-level buffer operations claim C2 quantifies over. -/
inductive BufOp where
  | insLine (row : Int)
  | delLine (row : Int)
  | reload (content : FileContent)
deriving DecidableEq, Repr

/-- Apply one `BufOp` to a buffer. -/
def BufOp.apply (b : Buffer) : BufOp → Except Unit Buffer
  | .insLine row => b.insertLine row
  | .delLine row => b.deleteLine row
  | .reload content => .ok (b.load content)

/-- Run a sequence of buffer operations, stopping at the first failure. -/
def runOps (b : Buffer) : List BufOp → Except Unit Buffer
  | [] => .ok b
  | op :: ops =>
    match op.apply b with
    | .error e => .error e
    | .ok b1 => runOps b1 ops

/-! ### Concrete states shared by the editor-level claims -/

/-- A filesystem on which no path can be opened and the current directory is
empty. -/
def noFs : FileSystem := ⟨fun _ => none, []⟩

/-- A concrete editor state: a single unmodified buffer holding the one line
`"ab"`, cursor at row 0 column 1, insert mode, running. -/
def abEditor : Editor :=
  { buffers := [⟨[['a', 'b']], [], false⟩]
  , currentBuffer := 0
  , cursorRow := 0
  , cursorCol := 1
  , rowOffset := 0
  , colOffset := 0
  , statusMessage := []
  , commandBuffer := []
  , commandMode := false
  , running := true
  , showExplorer := false
  , fileExplorer := ⟨[], 0⟩ }

/-! ### Helper lemmas -/

theorem set_getD_self (l : List α) (n : Nat) (d : α) (h : n < l.length) :
    l.set n (l.getD n d) = l := by
  induction l generalizing n with
  | nil => simp at h
  | cons x xs ih =>
    cases n with
    | zero => simp [List.getD]
    | succ m =>
      simp only [List.length_cons, Nat.succ_lt_succ_iff] at h
      simp [List.getD] at ih ⊢
      exact ih m h

theorem getD_concat_length (l : List α) (x d : α) :
    (l ++ [x]).getD l.length d = x := by
  induction l with
  | nil => rfl
  | cons y ys ih => simp [ih]

theorem drop_length_succ_append (A : List α) (c : α) (B : List α) :
    (A ++ c :: B).drop (A.length + 1) = B := by
  induction A with
  | nil => rfl
  | cons a as ih => simp [ih]

/-! ### C1 — out-of-range arguments to buffer operations -/

/-- C1, counterexample: on the default buffer (one empty line) the call
`insertChar(0, 5, 'x')` has an in-range row but an out-of-range column; the
source does not check `col`, and `std::string::insert` throws
`std::out_of_range` — the call is not a silent no-op. -/
theorem insertChar_oob_col_raises :
    Buffer.mkDefault.insertChar 0 5 'x' = .error () := by decide

/-- C1 (amended): out-of-range ROW arguments are silent no-ops — `insertChar`,
`deleteChar` and `getLine` for `row < 0 ∨ row ≥ lineCount`, `insertLine` for
`row < 0 ∨ row > lineCount`, and `deleteChar` also for `col == 0`.  But an
out-of-range COLUMN is not tolerated: `insertChar` with `col < 0` or
`col > length(line)` and `deleteChar` with `col < 0` or
`col - 1 > length(line)` throw `std::out_of_range`; `insertLine` with
`row = lineCount` and `deleteLine` (which has no row check) with an
out-of-range row on a multi-line buffer perform invalid vector-iterator
arithmetic (undefined behaviour), modelled as errors. -/
theorem buffer_oob_contract (b : Buffer) (row col : Int) (c : Char) :
    ((row < 0 ∨ (b.lines.length : Int) ≤ row) →
      b.insertChar row col c = .ok b
      ∧ b.deleteChar row col = .ok b
      ∧ b.getLine row = [])
    ∧ ((row < 0 ∨ (b.lines.length : Int) < row) → b.insertLine row = .ok b)
    ∧ (col = 0 → b.deleteChar row col = .ok b)
    ∧ (0 ≤ row → row < (b.lines.length : Int) →
        (col < 0 ∨ ((b.lines.getD row.toNat []).length : Int) < col) →
        b.insertChar row col c = .error ())
    ∧ (0 ≤ row → row < (b.lines.length : Int) → col ≠ 0 →
        (col < 0 ∨ ((b.lines.getD row.toNat []).length : Int) < col - 1) →
        b.deleteChar row col = .error ())
    ∧ (row = (b.lines.length : Int) → b.insertLine row = .error ())
    ∧ (2 ≤ b.lines.length → (row < 0 ∨ (b.lines.length : Int) ≤ row) →
        b.deleteLine row = .error ()) := by
  refine ⟨fun h => ⟨?_, ?_, ?_⟩, fun h => ?_, fun h => ?_,
    fun h1 h2 h3 => ?_, fun h1 h2 h3 h4 => ?_, fun h => ?_, fun h1 h2 => ?_⟩
  · unfold Buffer.insertChar; rw [if_pos h]
  · unfold Buffer.deleteChar; rw [if_pos (by tauto)]
  · unfold Buffer.getLine; rw [if_pos h]
  · unfold Buffer.insertLine; rw [if_pos h]
  · unfold Buffer.deleteChar; rw [if_pos (by tauto)]
  · unfold Buffer.insertChar
    rw [if_neg (by omega), if_pos h3]
  · unfold Buffer.deleteChar
    rw [if_neg (by omega), if_pos h4]
  · unfold Buffer.insertLine
    rw [if_neg (by omega), if_pos h]
  · unfold Buffer.deleteLine
    rw [if_neg (by omega), if_pos h2]

/-- Witness for `buffer_oob_contract` at concrete inputs: an out-of-range row
is a no-op for `insertChar`, and an out-of-range column makes `insertChar`
throw. -/
theorem buffer_oob_contract_witness :
    Buffer.mkDefault.insertChar 5 0 'x' = .ok Buffer.mkDefault
    ∧ Buffer.mkDefault.insertChar 0 5 'x' = .error ()
    ∧ Buffer.mkDefault.deleteLine 7 = .ok Buffer.mkDefault :=
  ⟨((buffer_oob_contract Buffer.mkDefault 5 0 'x').1 (by decide)).1,
   (buffer_oob_contract Buffer.mkDefault 0 5 'x').2.2.2.1
     (by decide) (by decide) (by decide),
   by decide⟩

/-! ### C2 — the line count never drops below 1 -/

theorem load_lines_ge_one (b : Buffer) (content : FileContent) :
    1 ≤ (b.load content).lines.length := by
  cases content with
  | none => simp [Buffer.load]
  | some cs =>
    by_cases h : getlines cs = []
    · simp [Buffer.load, h]
    · simp only [Buffer.load, if_neg h]
      exact List.length_pos.2 h

theorem insertLine_ok_length (b : Buffer) (row : Int) (b' : Buffer)
    (h : b.insertLine row = .ok b') : b.lines.length ≤ b'.lines.length := by
  unfold Buffer.insertLine at h
  split at h
  · cases h; exact Nat.le_refl _
  · split at h
    · simp at h
    · cases h
      simp only [List.length_append, List.length_take, List.length_drop,
        List.length_cons, List.length_nil]
      omega

theorem deleteLine_ok_length (b : Buffer) (row : Int) (b' : Buffer)
    (h0 : 1 ≤ b.lines.length) (h : b.deleteLine row = .ok b') :
    1 ≤ b'.lines.length := by
  unfold Buffer.deleteLine at h
  split at h
  · cases h; exact h0
  · split at h
    · simp at h
    · cases h
      rename_i hlen hrow
      simp only [List.length_append, List.length_take, List.length_drop]
      omega

theorem runOps_preserves_ge_one (ops : List BufOp) (b b' : Buffer)
    (h0 : 1 ≤ b.lines.length) (h : runOps b ops = .ok b') :
    1 ≤ b'.lines.length := by
  induction ops generalizing b with
  | nil => unfold runOps at h; cases h; exact h0
  | cons op ops ih =>
    unfold runOps at h
    cases hop : op.apply b with
    | error e => rw [hop] at h; simp at h
    | ok b1 =>
      rw [hop] at h
      refine ih b1 ?_ h
      cases op with
      | insLine row =>
        exact Nat.le_trans h0 (insertLine_ok_length b row b1 hop)
      | delLine row => exact deleteLine_ok_length b row b1 h0 hop
      | reload content =>
        cases hop
        exact load_lines_ge_one b content

/-- C2: starting from a buffer with at least one line, any sequence of
`insertLine` / `deleteLine` / `load` operations that returns keeps the line
count ≥ 1; `deleteLine` is a silent no-op on a one-line buffer; `load` of an
unopenable or empty file yields exactly one empty line. -/
theorem line_count_never_below_one (ops : List BufOp) (b b' : Buffer)
    (row : Int) (h0 : 1 ≤ b.lines.length) (h : runOps b ops = .ok b') :
    1 ≤ b'.lines.length
    ∧ (b.lines.length = 1 → b.deleteLine row = .ok b)
    ∧ (b.load none).lines = [[]]
    ∧ (b.load (some [])).lines = [[]] := by
  refine ⟨runOps_preserves_ge_one ops b b' h0 h, fun h1 => ?_, rfl, rfl⟩
  unfold Buffer.deleteLine
  rw [if_pos (by omega)]

/-- Witness for `line_count_never_below_one`: running
`insertLine 0; deleteLine 0; deleteLine 0; load ""` from the default buffer
succeeds and ends with one line. -/
theorem line_count_never_below_one_witness :
    1 ≤ (⟨[[]], [], true⟩ : Buffer).lines.length
    ∧ (Buffer.mkDefault.lines.length = 1 →
        Buffer.mkDefault.deleteLine 3 = .ok Buffer.mkDefault)
    ∧ (Buffer.mkDefault.load none).lines = [[]]
    ∧ (Buffer.mkDefault.load (some [])).lines = [[]] :=
  line_count_never_below_one
    [.insLine 0, .delLine 0, .delLine 0, .reload (some [])]
    Buffer.mkDefault ⟨[[]], [], true⟩ 3 (by decide) (by decide)

/-! ### C5 — insert/delete symmetry -/

theorem getD_set_self (l : List α) (n : Nat) (x d : α) (h : n < l.length) :
    (l.set n x).getD n d = x := by
  rw [List.getD_eq_getElem _ _ (by simpa using h)]
  simp

theorem drop_succ_append_of_length (A : List α) (c : α) (B : List α) (n : Nat)
    (h : A.length = n) : (A ++ c :: B).drop (n + 1) = B := by
  subst h
  exact drop_length_succ_append A c B

/-- C5: with `r` an in-range row and `col` in `[0, length(line r)]`,
`insertChar(r, col, c)` followed by `deleteChar(r, col + 1)` succeeds and
restores the buffer's entire line list (only the `modified` flag is left
set). -/
theorem insert_then_delete_restores (b : Buffer) (r col : Int) (c : Char)
    (hr0 : 0 ≤ r) (hr1 : r < (b.lines.length : Int))
    (hc0 : 0 ≤ col) (hc1 : col ≤ ((b.lines.getD r.toNat []).length : Int)) :
    (b.insertChar r col c).bind (fun b1 => b1.deleteChar r (col + 1))
      = .ok { b with modified := true } := by
  have hrn : r.toNat < b.lines.length := by omega
  have hco : col.toNat ≤ (b.lines.getD r.toNat []).length := by omega
  have htake : ((b.lines.getD r.toNat []).take col.toNat).length = col.toNat := by
    simp only [List.length_take]
    omega
  simp only [Buffer.insertChar]
  rw [if_neg (by omega), if_neg (by omega)]
  simp only [Except.bind, Buffer.deleteChar, List.length_set]
  rw [if_neg (by omega)]
  rw [getD_set_self _ _ _ _ hrn]
  rw [if_neg (by simp only [List.length_append, List.length_cons, htake,
    List.length_drop]; omega)]
  rw [show col + 1 - 1 = col from by omega]
  rw [List.take_left' htake]
  rw [drop_succ_append_of_length _ _ _ _ htake]
  rw [List.take_append_drop]
  rw [List.set_set]
  rw [set_getD_self _ _ _ hrn]

/-- Witness for `insert_then_delete_restores` on the one-line buffer `"ab"`,
inserting at column 1 and deleting at column 2. -/
theorem insert_then_delete_restores_witness :
    ((⟨[['a', 'b']], [], false⟩ : Buffer).insertChar 0 1 'x').bind
        (fun b1 => b1.deleteChar 0 2)
      = .ok ⟨[['a', 'b']], [], true⟩ :=
  insert_then_delete_restores ⟨[['a', 'b']], [], false⟩ 0 1 'x'
    (by decide) (by decide) (by decide) (by decide)

/-! ### C4 — save/load round-trip -/

theorem getlines_append_newline (l : List Char) (hl : '\n' ∉ l)
    (t : List Char) : getlines (l ++ '\n' :: t) = l :: getlines t := by
  induction l with
  | nil => simp [getlines]
  | cons c cs ih =>
    have hc : ¬ c = '\n' := fun h => hl (h ▸ List.mem_cons_self c cs)
    have ihs : getlines (cs ++ '\n' :: t) = cs :: getlines t :=
      ih fun h => hl (List.mem_cons_of_mem c h)
    simp only [List.cons_append, getlines, if_neg hc, List.append_eq, ihs]

theorem getlines_saveContent (ls : List (List Char))
    (h : ∀ l ∈ ls, '\n' ∉ l) :
    getlines ((ls.map (fun l => l ++ ['\n'])).flatten) = ls := by
  induction ls with
  | nil => simp [getlines]
  | cons l t ih =>
    simp only [List.map_cons, List.flatten_cons, List.append_assoc,
      List.singleton_append]
    rw [getlines_append_newline l (h l (List.mem_cons_self l t))]
    rw [ih fun x hx => h x (List.mem_cons_of_mem l hx)]

/-- C4: for a buffer whose line list is nonempty (the class invariant) and
whose lines hold no embedded newline (the data model of §3), `save()`
followed by constructing a fresh buffer from the same path with the bytes
just written yields the identical ordered line sequence — in particular
identical "modulo a possible single trailing empty line" as claimed — and
the fresh buffer has `modified = false` and the same file path. -/
theorem save_then_load_roundtrip (b : Buffer)
    (h1 : b.lines ≠ []) (h2 : ∀ l ∈ b.lines, '\n' ∉ l) :
    (Buffer.ofPath b.filepath (some (b.save).2)).lines = b.lines
    ∧ (Buffer.ofPath b.filepath (some (b.save).2)).modified = false
    ∧ (Buffer.ofPath b.filepath (some (b.save).2)).filepath = b.filepath := by
  have hsc : getlines (b.save).2 = b.lines := getlines_saveContent b.lines h2
  refine ⟨?_, ?_, ?_⟩ <;>
    simp [Buffer.ofPath, Buffer.load, hsc, h1]

/-- Witness for `save_then_load_roundtrip` on a two-line buffer. -/
theorem save_then_load_roundtrip_witness :
    (Buffer.ofPath
        (⟨[['h', 'i'], []], ['f'], true⟩ : Buffer).filepath
        (some ((⟨[['h', 'i'], []], ['f'], true⟩ : Buffer).save).2)).lines
      = (⟨[['h', 'i'], []], ['f'], true⟩ : Buffer).lines
    ∧ (Buffer.ofPath
        (⟨[['h', 'i'], []], ['f'], true⟩ : Buffer).filepath
        (some ((⟨[['h', 'i'], []], ['f'], true⟩ : Buffer).save).2)).modified
      = false
    ∧ (Buffer.ofPath
        (⟨[['h', 'i'], []], ['f'], true⟩ : Buffer).filepath
        (some ((⟨[['h', 'i'], []], ['f'], true⟩ : Buffer).save).2)).filepath
      = (⟨[['h', 'i'], []], ['f'], true⟩ : Buffer).filepath :=
  save_then_load_roundtrip ⟨[['h', 'i'], []], ['f'], true⟩
    (by decide) (by decide)

/-! ### C7 — highlight as a fold of left-to-right rewriting passes -/

theorem highlightPass_of_none (m : Matcher) (color s : List Char)
    (h : m.find s = none) : highlightPass m color s = s := by
  rw [highlightPass]
  split
  · rfl
  · rename_i p n hs
    rw [h] at hs
    cases hs

theorem highlightPass_of_some (m : Matcher) (color s : List Char) (p n : Nat)
    (h : m.find s = some (p, n)) :
    highlightPass m color s
      = s.take p ++ color ++ (s.drop p).take n ++ resetEscape
          ++ highlightPass m color (s.drop (p + n)) := by
  rw [highlightPass]
  split
  · rename_i hs; rw [h] at hs; cases hs
  · rename_i p' n' hs
    rw [h] at hs
    cases hs
    rfl

theorem passLoop_of_none (m : Matcher) (color acc s : List Char)
    (h : m.find s = none) : passLoop m color acc s = acc ++ s := by
  rw [passLoop]
  split
  · rfl
  · rename_i p n hs
    rw [h] at hs
    cases hs

theorem passLoop_of_some (m : Matcher) (color acc s : List Char) (p n : Nat)
    (h : m.find s = some (p, n)) :
    passLoop m color acc s
      = passLoop m color
          (acc ++ s.take p ++ color ++ (s.drop p).take n ++ resetEscape)
          (s.drop (p + n)) := by
  rw [passLoop]
  split
  · rename_i hs; rw [h] at hs; cases hs
  · rename_i p' n' hs
    rw [h] at hs
    cases hs
    rfl

/-- The accumulator loop of the source equals the declarative pass:
`result` collects exactly the prefix already rewritten. -/
theorem passLoop_eq_pass (m : Matcher) (color s : List Char) :
    ∀ acc, passLoop m color acc s = acc ++ highlightPass m color s := by
  generalize hn : s.length = nn
  induction nn using Nat.strong_induction_on generalizing s with
  | _ nn ih =>
    intro acc
    cases hfind : m.find s with
    | none =>
      rw [passLoop_of_none m color acc s hfind,
        highlightPass_of_none m color s hfind]
    | some pr =>
      obtain ⟨p, n⟩ := pr
      have hv := m.valid s p n hfind
      rw [passLoop_of_some m color acc s p n hfind,
        highlightPass_of_some m color s p n hfind]
      rw [ih ((s.drop (p + n)).length)
        (by simp only [List.length_drop]; omega) (s.drop (p + n)) rfl]
      simp [List.append_assoc]

/-- C7: `SyntaxHighlighter::highlight` is precisely the fold that applies
each rule in registration order as one left-to-right, non-overlapping
rewriting pass (`highlightPass`) over the previous pass's output: matches
are wrapped as `color ++ match ++ resetEscape`, unmatched spans are kept,
pieces concatenated in order. -/
theorem highlight_is_rule_fold (hl : SyntaxHighlighter) (line : List Char) :
    hl.highlight line = highlightSpecFold hl line := by
  unfold SyntaxHighlighter.highlight highlightSpecFold
  exact List.foldl_ext _ _ line fun a r _ =>
    (passLoop_eq_pass r.1 r.2 a []).trans (List.nil_append _)

/-! ### C3 — CR in insert mode -/

/-- C3: pressing CR on the buffer line `"ab"` with the cursor at column 1
truncates the line to `"a"`, inserts an EMPTY line after it and moves the
cursor there — the text `"b"` after the cursor is discarded, not moved to
the new line (the source computes `rest = line.substr(cursorCol)` and never
uses it), so the new line is `""` where the claim requires `"b"`. -/
theorem newline_discards_text_after_cursor :
    Editor.processKeypress noFs abEditor '\r'
      = .ok ({ abEditor with
                buffers := [⟨[['a'], []], [], true⟩]
              , cursorRow := 1
              , cursorCol := 0 },
             [Event.keyPress '\r', Event.bufferChange]) := by decide

/-! ### C6 — the `q` command -/

/-- C6: executing the command `q` quits (sets `running := false`) when the
current buffer is unmodified; when it is modified it leaves `running` as it
was (`true` while the editor runs), leaves the buffer list unchanged and
sets the status message to exactly
`"Unsaved changes! Use :q! to force quit"`. -/
theorem quit_command_dispatch (fs : FileSystem) (e : Editor)
    (hrun : e.running = true) :
    (e.currentBuf.modified = false →
      (Editor.executeCommand fs e "q".toList).running = false)
    ∧ (e.currentBuf.modified = true →
        (Editor.executeCommand fs e "q".toList).running = true
        ∧ (Editor.executeCommand fs e "q".toList).statusMessage
            = "Unsaved changes! Use :q! to force quit".toList
        ∧ (Editor.executeCommand fs e "q".toList).buffers = e.buffers) := by
  have hq : Editor.executeCommand fs e "q".toList = e.quit := by
    unfold Editor.executeCommand
    rw [if_pos rfl]
  rw [hq]
  unfold Editor.quit
  constructor
  · intro h
    rw [h]
    simp
  · intro h
    rw [h]
    simp [hrun]

/-- Witness for `quit_command_dispatch`: on `abEditor` (unmodified buffer)
the `q` command stops the editor. -/
theorem quit_command_dispatch_witness :
    (Editor.executeCommand noFs abEditor "q".toList).running = false :=
  (quit_command_dispatch noFs abEditor rfl).1 rfl

/-! ### C8 — `e <path>` on a nonexistent file -/

/-- C8: opening a path the filesystem cannot read via the `e <path>` command
yields a new current buffer with exactly one empty line, the given file
path and `modified = false`; the cursor is reset and no error status is set
(the status message is untouched). -/
theorem open_missing_file_new_buffer (fs : FileSystem) (e : Editor)
    (path : List Char) (h : fs.read path = none) :
    (Editor.executeCommand fs e ("e ".toList ++ path)).currentBuf.lines = [[]]
    ∧ (Editor.executeCommand fs e ("e ".toList ++ path)).currentBuf.filepath
        = path
    ∧ (Editor.executeCommand fs e ("e ".toList ++ path)).currentBuf.modified
        = false
    ∧ (Editor.executeCommand fs e ("e ".toList ++ path)).statusMessage
        = e.statusMessage
    ∧ (Editor.executeCommand fs e ("e ".toList ++ path)).cursorRow = 0
    ∧ (Editor.executeCommand fs e ("e ".toList ++ path)).cursorCol = 0 := by
  have hne1 : ("e ".toList ++ path) ≠ "q".toList := fun hco => by
    injection hco with hA _
    exact absurd hA (by decide)
  have hne2 : ("e ".toList ++ path) ≠ "w".toList := fun hco => by
    injection hco with hA _
    exact absurd hA (by decide)
  have hne3 : ("e ".toList ++ path) ≠ "wq".toList := fun hco => by
    injection hco with hA _
    exact absurd hA (by decide)
  have hcmd : Editor.executeCommand fs e ("e ".toList ++ path)
      = Editor.openFile fs e path := by
    have heq : List.take 2 ("e ".toList ++ path) = "e ".toList := rfl
    have hdrop : List.drop 2 ("e ".toList ++ path) = path := rfl
    unfold Editor.executeCommand
    rw [if_neg hne1, if_neg hne2, if_neg hne3, if_pos heq, hdrop]
  rw [hcmd]
  unfold Editor.openFile Editor.currentBuf
  simp [getD_concat_length, h, Buffer.ofPath, Buffer.load]

/-- Witness for `open_missing_file_new_buffer` on `abEditor` and the path
`"x"` under the empty filesystem. -/
theorem open_missing_file_new_buffer_witness :
    (Editor.executeCommand noFs abEditor ("e ".toList ++ ['x'])).currentBuf.lines
      = [[]]
    ∧ (Editor.executeCommand noFs abEditor
        ("e ".toList ++ ['x'])).currentBuf.filepath = ['x']
    ∧ (Editor.executeCommand noFs abEditor
        ("e ".toList ++ ['x'])).currentBuf.modified = false
    ∧ (Editor.executeCommand noFs abEditor
        ("e ".toList ++ ['x'])).statusMessage = abEditor.statusMessage
    ∧ (Editor.executeCommand noFs abEditor ("e ".toList ++ ['x'])).cursorRow = 0
    ∧ (Editor.executeCommand noFs abEditor ("e ".toList ++ ['x'])).cursorCol
        = 0 :=
  open_missing_file_new_buffer noFs abEditor ['x'] rfl

/-! ### C9 — moveSelection clamping -/

theorem sizet_pred_toInt (n : Nat) (h1 : 1 ≤ n) (h2 : n < 2 ^ 31) :
    sizetToInt (sizetPred n) = (n : Int) - 1 := by
  simp only [sizetToInt, sizetPred]
  rw [if_pos (by omega)]
  omega

/-- C9, counterexample: with an empty listing (zero entries) the source
assigns `selectedIndex = files.size() - 1`, i.e. the `size_t` value
`2^64 - 1` converted to `int`, which is `-1`; no index can lie in the
claim's range `[0, count-1] = [0, -1]`, and indeed the result is negative. -/
theorem moveSelection_empty_breaks_range :
    (FileExplorer.moveSelection ⟨[], 0⟩ 0).selectedIndex = -1
    ∧ ¬ (0 ≤ (FileExplorer.moveSelection ⟨[], 0⟩ 0).selectedIndex) := by
  decide

/-- C9 (amended): whenever the explorer lists at least one entry (and fewer
than `2^31`, so the `size_t`→`int` conversion is value-preserving),
`moveSelection(delta)` leaves the selection index in `[0, count-1]`; when
the listing is empty the index is set to `-1` instead. -/
theorem moveSelection_clamps (fe : FileExplorer) (delta : Int)
    (h1 : 0 < fe.files.length) (h2 : fe.files.length < 2 ^ 31) :
    0 ≤ (fe.moveSelection delta).selectedIndex
    ∧ (fe.moveSelection delta).selectedIndex < (fe.files.length : Int) := by
  have hs := sizet_pred_toInt fe.files.length h1 h2
  simp only [FileExplorer.moveSelection]
  by_cases hA : fe.selectedIndex + delta < 0
  · simp only [if_pos hA]
    split
    · rw [hs]; omega
    · omega
  · simp only [if_neg hA]
    split
    · rw [hs]; omega
    · rename_i hB; omega

/-- Witness for `moveSelection_clamps`: two entries, moving by 7 clamps to
index 1. -/
theorem moveSelection_clamps_witness :
    0 ≤ (FileExplorer.moveSelection ⟨[['a'], ['b']], 0⟩ 7).selectedIndex
    ∧ (FileExplorer.moveSelection ⟨[['a'], ['b']], 0⟩ 7).selectedIndex
        < ((⟨[['a'], ['b']], 0⟩ : FileExplorer).files.length : Int) :=
  moveSelection_clamps ⟨[['a'], ['b']], 0⟩ 7 (by decide) (by decide)

/-! ### C10 — backspace at the start of a line -/

/-- C10: in insert mode with the cursor at column 0, the backspace key
(0x7F) leaves the whole editor state unchanged — buffer contents, line
count, `cursorRow` and `cursorCol` included; lines are never joined — and
the only plugin notification sent is `onKeyPress` (no `onBufferChange`). -/
theorem backspace_at_line_start_noop (fs : FileSystem) (e : Editor)
    (hm : e.commandMode = false) (hc : e.cursorCol = 0) :
    Editor.processKeypress fs e (Char.ofNat 127)
      = .ok (e, [Event.keyPress (Char.ofNat 127)]) := by
  have h58 : ¬ ((Char.ofNat 127).toNat = 58) := by decide
  have h27 : ¬ ((Char.ofNat 127).toNat = 27) := by decide
  have h127 : (Char.ofNat 127).toNat = 127 := by decide
  unfold Editor.processKeypress
  rw [hm]
  simp only [Bool.false_eq_true, if_false]
  rw [if_neg h58, if_neg h27, if_pos h127]
  unfold Editor.deleteChar
  rw [hc]
  rw [if_neg (by omega)]
  rfl

/-- Witness for `backspace_at_line_start_noop` on `abEditor` with the cursor
moved to column 0. -/
theorem backspace_at_line_start_noop_witness :
    Editor.processKeypress noFs { abEditor with cursorCol := 0 }
        (Char.ofNat 127)
      = .ok ({ abEditor with cursorCol := 0 },
             [Event.keyPress (Char.ofNat 127)]) :=
  backspace_at_line_start_noop noFs { abEditor with cursorCol := 0 } rfl rfl

end TerminalText
